import Mathlib

/-! # Verification of the whisper transcription server

A shallow embedding of `src/whisper-server.py`, a small Flask service with
three routes. The only handler with logic is `transcribe`
(POST /v1/audio/transcriptions, lines 22-69): it validates the multipart
request, writes the upload to a named temporary file, invokes the loaded
whisper model, and maps outcomes to JSON responses.

The effectful steps that can fail (writing the upload with `file.save`,
the model call `model.transcribe`, and the cleanup `os.unlink`) are
modelled by an environment `Env` fixing the outcome of each step for the
request under consideration. The handler is then a pure function from the
environment and the parsed request to a `HandlerResult` recording the HTTP
response, whether the temporary file is still on disk when the handler
returns, and the trace of model invocations.
-/

namespace WhisperServer

/-- Outcome of one effectful Python step: normal return, or a raised
exception carrying its string representation (what `str(e)` yields). -/
inductive Outcome (α : Type) where
  | ok (val : α)
  | exn (msg : String)
deriving DecidableEq

/-- One part of the multipart body held in `request.files` (a werkzeug
FileStorage); only the filename is consulted by the handler. -/
structure FilePart where
  filename : String
deriving DecidableEq

/-- The dictionary returned by `model.transcribe`; the handler only reads
the optional key "text" (line 52 uses `result.get("text", "")`). -/
structure TranscribeDict where
  text? : Option String
deriving DecidableEq

/-- Per-request behaviour of the effectful steps: the name the
`NamedTemporaryFile` receives (line 37), the outcome of
`file.save(tmp_file.name)` (line 38), of `model.transcribe(...)`
(lines 45-49), and of `os.unlink(tmp_path)` (line 63). -/
structure Env where
  tmpName : String
  saveResult : Outcome Unit
  transcribeResult : Outcome TranscribeDict
  unlinkResult : Outcome Unit
deriving DecidableEq

/-- The parsed request: `request.files` and `request.form`, each a
multidict modelled as an association list (lookup returns the first
binding, as `MultiDict.get` does). -/
structure Request where
  files : List (String × FilePart)
  form : List (String × String)
deriving DecidableEq

/-- An HTTP response: status code plus the JSON object body (all bodies
produced by this server are flat string-to-string objects). -/
structure Response where
  status : Nat
  body : List (String × String)
deriving DecidableEq

/-- One invocation of `model.transcribe`: the three arguments passed at
lines 45-49 — the temp-file path, the `language=` keyword (None modelled
as `none`), and the `fp16=` keyword. -/
structure ModelCall where
  path : String
  language : Option String
  fp16 : Bool
deriving DecidableEq

/-- What one run of the handler produces: the response, whether the
temporary file created for the upload is still on disk after the handler
returns (`false` also when no temp file was ever created), and the trace
of model invocations. -/
structure HandlerResult where
  response : Response
  tmpRemains : Bool
  calls : List ModelCall
deriving DecidableEq

/-- Python truthiness of a string: the empty string is falsy, every other
string is truthy. -/
def pyTruthy (s : String) : Bool := s ≠ ""

/-- Line 47: `language=language if language and language != "auto" else None`.
`language` is `request.form.get("language", None)`, so it is `none` when
the field is absent. -/
def normalizeLanguage (language : Option String) : Option String :=
  match language with
  | none => none
  | some l => if pyTruthy l && l != "auto" then some l else none

/-- The whitespace characters `str.strip()` removes (the ASCII ones;
the transcripts handled here are modelled over these). -/
def isPySpace (c : Char) : Bool :=
  c = ' ' || c = '\t' || c = '\n' || c = '\r' || c = '\x0b' || c = '\x0c'

/-- Strip leading and trailing whitespace from a character list, as
Python `str.strip()` does. -/
def stripChars (s : List Char) : List Char :=
  ((s.dropWhile isPySpace).reverse.dropWhile isPySpace).reverse

/-- The `.strip()` call of line 52, on strings. -/
def pyStrip (s : String) : String := ⟨stripChars s.data⟩

/-- Lines 41-65: the inner `try/finally` entered once the upload was
written to the temp file. The `finally` runs `os.unlink(tmp_path)` inside
its own `try/except: pass` (lines 62-65), so a failing unlink leaves the
file on disk but never alters the response; an exception from the model
call then still propagates to the outer handler. -/
def innerTryFinally (env : Env) (language : Option String) : HandlerResult :=
  let call : ModelCall := ⟨env.tmpName, normalizeLanguage language, false⟩
  let remains : Bool :=
    match env.unlinkResult with
    | .ok _ => false
    | .exn _ => true
  match env.transcribeResult with
  | .ok result =>
      ⟨⟨200, [("text", pyStrip (result.text?.getD ""))]⟩, remains, [call]⟩
  | .exn e =>
      ⟨⟨500, [("error", e)]⟩, remains, [call]⟩

/-- Lines 22-69: the POST /v1/audio/transcriptions handler. Validation
first (lines 26-31). The `with tempfile.NamedTemporaryFile(delete=False)`
block (lines 37-39) creates the file on disk and then runs `file.save`;
if the save raises, the exception propagates to the outer
`except Exception` (lines 67-69) — the inner `try/finally` was never
entered, so the temp file stays on disk. Only after a successful save
does control reach the inner `try/finally`. -/
def transcribe (env : Env) (req : Request) : HandlerResult :=
  match req.files.lookup "file" with
  | none =>
      ⟨⟨400, [("error", "No file provided")]⟩, false, []⟩
  | some file =>
      if file.filename = "" then
        ⟨⟨400, [("error", "No file selected")]⟩, false, []⟩
      else
        match env.saveResult with
        | .exn e => ⟨⟨500, [("error", e)]⟩, true, []⟩
        | .ok _ => innerTryFinally env (req.form.lookup "language")

/-- Lines 71-73: the GET /health handler. It executes in the process
holding the loaded model but never consults it; the environment argument
records that independence. -/
def health (_env : Env) : Response :=
  ⟨200, [("status", "healthy"), ("service", "whisper-transcription")]⟩

/-- Refinement target for the amended language normalization: absent,
empty, or "auto" give an unset hint; any other string is passed
verbatim. Stated in the words of the amended claim, to be compared with
`normalizeLanguage`, the embedding of line 47. -/
def normalizeLanguageAmended (language : Option String) : Option String :=
  match language with
  | none => none
  | some l => if l = "" ∨ l = "auto" then none else some l

/-! ## Concrete inputs used by witnesses and counterexamples -/

/-- An environment where every effectful step succeeds and the model
returns a transcript with surrounding whitespace. -/
def env_ok : Env := ⟨"/tmp/upload.webm", .ok (), .ok ⟨some " hello "⟩, .ok ()⟩

/-- An environment where the model call raises an exception whose string
representation is "boom". -/
def env_boom : Env := ⟨"/tmp/upload.webm", .ok (), .exn "boom", .ok ()⟩

/-- An environment where writing the upload to the temp file raises. -/
def env_saveFail : Env := ⟨"/tmp/upload.webm", .exn "disk full", .ok ⟨some " hello "⟩, .ok ()⟩

/-- A valid upload with no language field. -/
def req_valid : Request := ⟨[("file", ⟨"clip.webm"⟩)], []⟩

/-- A valid upload with language field "fr". -/
def req_fr : Request := ⟨[("file", ⟨"clip.webm"⟩)], [("language", "fr")]⟩

/-- A valid upload whose language field is the empty string. -/
def req_emptyLang : Request := ⟨[("file", ⟨"clip.webm"⟩)], [("language", "")]⟩

/-- A request with no file part at all. -/
def req_noFile : Request := ⟨[], []⟩

/-- A request whose file part carries an empty filename. -/
def req_emptyFilename : Request := ⟨[("file", ⟨""⟩)], []⟩

/-! ## Helper lemmas about stripping -/

/-- Dropping a prefix twice is the same as dropping it once. -/
theorem dropWhile_dropWhile (p : Char → Bool) (l : List Char) :
    (l.dropWhile p).dropWhile p = l.dropWhile p := by
  induction l with
  | nil => rfl
  | cons a l ih =>
      rw [List.dropWhile_cons]
      by_cases h : p a
      · simp [h, ih]
      · simp [List.dropWhile_cons, h]

/-- The head surviving `dropWhile p` does not satisfy `p`. -/
theorem head?_dropWhile_false (p : Char → Bool) :
    ∀ l : List Char, ∀ a : Char, (l.dropWhile p).head? = some a → p a = false := by
  intro l
  induction l with
  | nil => intro a h; simp [List.dropWhile] at h
  | cons b l ih =>
      intro a h
      rw [List.dropWhile_cons] at h
      by_cases hb : p b
      · rw [if_pos hb] at h
        exact ih a h
      · rw [if_neg hb] at h
        have hba : b = a := by simpa using h
        rw [← hba]
        simpa using hb

/-- `dropWhile` removes a prefix, so a nonempty result keeps the last
element of the original list. -/
theorem getLast?_dropWhile (p : Char → Bool) :
    ∀ l : List Char, l.dropWhile p ≠ [] → (l.dropWhile p).getLast? = l.getLast? := by
  intro l
  induction l with
  | nil => intro h; simp [List.dropWhile] at h
  | cons b l ih =>
      intro h
      rw [List.dropWhile_cons] at h ⊢
      by_cases hb : p b
      · rw [if_pos hb] at h ⊢
        have hl : l ≠ [] := by
          intro e
          rw [e] at h
          simp [List.dropWhile] at h
        rw [ih h]
        cases l with
        | nil => exact absurd rfl hl
        | cons c l2 => rw [List.getLast?_cons_cons]
      · rw [if_neg hb]

/-- A list whose head does not satisfy `p` is untouched by `dropWhile p`. -/
theorem dropWhile_eq_self_of_head (p : Char → Bool) (l : List Char)
    (h : ∀ a, l.head? = some a → p a = false) : l.dropWhile p = l := by
  cases l with
  | nil => rfl
  | cons a l =>
      rw [List.dropWhile_cons]
      have := h a rfl
      simp [this]

/-- Stripping both ends is idempotent. -/
theorem stripChars_idem (s : List Char) : stripChars (stripChars s) = stripChars s := by
  rcases hv : (s.dropWhile isPySpace).reverse.dropWhile isPySpace with _ | ⟨b, w⟩
  · have hs : stripChars s = [] := by unfold stripChars; rw [hv]; rfl
    rw [hs]
    rfl
  · have hvne : (s.dropWhile isPySpace).reverse.dropWhile isPySpace ≠ [] := by
      rw [hv]; simp
    have hune : s.dropWhile isPySpace ≠ [] := by
      intro e
      rw [e] at hvne
      simp [List.dropWhile] at hvne
    obtain ⟨a, ha⟩ : ∃ a, (s.dropWhile isPySpace).head? = some a := by
      cases hc : s.dropWhile isPySpace with
      | nil => exact absurd hc hune
      | cons a l => exact ⟨a, rfl⟩
    have hpa : isPySpace a = false := head?_dropWhile_false isPySpace s a ha
    have hlast : ((s.dropWhile isPySpace).reverse.dropWhile isPySpace).getLast? = some a := by
      rw [getLast?_dropWhile isPySpace _ hvne, List.getLast?_reverse]
      exact ha
    have hhead : (stripChars s).head? = some a := by
      unfold stripChars
      rw [List.head?_reverse]
      exact hlast
    have h1 : (stripChars s).dropWhile isPySpace = stripChars s := by
      apply dropWhile_eq_self_of_head
      intro c hc
      rw [hhead] at hc
      have : a = c := by simpa using hc
      rw [← this]
      exact hpa
    show ((((stripChars s).dropWhile isPySpace).reverse).dropWhile isPySpace).reverse = stripChars s
    rw [h1]
    have h2 : (stripChars s).reverse = (s.dropWhile isPySpace).reverse.dropWhile isPySpace := by
      unfold stripChars
      rw [List.reverse_reverse]
    rw [h2, dropWhile_dropWhile]
    rfl

/-- `pyStrip` is idempotent. -/
theorem pyStrip_idem (s : String) : pyStrip (pyStrip s) = pyStrip s :=
  congrArg String.mk (stripChars_idem s.data)

/-! ## Evaluation lemmas for the handler -/

/-- A request passing both validation checks with a successful save
reaches the inner try/finally. -/
theorem transcribe_valid_save_ok (env : Env) (req : Request) (file : FilePart)
    (hf : req.files.lookup "file" = some file) (hn : file.filename ≠ "")
    (hsave : env.saveResult = .ok ()) :
    transcribe env req = innerTryFinally env (req.form.lookup "language") := by
  unfold transcribe
  rw [hf, hsave]
  simp [hn]

/-- The code-side normalization of line 47 agrees with the amended
normalization pointwise. -/
theorem normalizeLanguage_eq_amended (language : Option String) :
    normalizeLanguage language = normalizeLanguageAmended language := by
  cases language with
  | none => rfl
  | some l =>
      unfold normalizeLanguage normalizeLanguageAmended pyTruthy
      by_cases h1 : l = ""
      · simp [h1]
      · by_cases h2 : l = "auto"
        · simp [h1, h2]
        · simp [h1, h2]

/-- The model-call trace of one request is empty or a single call whose
arguments are the temp-file path, the normalized language, and
`fp16 = false`. -/
theorem transcribe_calls_cases (env : Env) (req : Request) :
    (transcribe env req).calls = [] ∨
    (transcribe env req).calls
      = [⟨env.tmpName, normalizeLanguage (req.form.lookup "language"), false⟩] := by
  unfold transcribe innerTryFinally
  cases req.files.lookup "file" with
  | none => exact Or.inl rfl
  | some file =>
      dsimp only
      by_cases hn : file.filename = ""
      · rw [if_pos hn]
        exact Or.inl rfl
      · rw [if_neg hn]
        cases env.saveResult with
        | exn e => exact Or.inl rfl
        | ok u =>
            cases env.transcribeResult with
            | ok d => exact Or.inr rfl
            | exn e => exact Or.inr rfl

/-! ## The claims -/

/-- C1, counterexample: the claim that the temp file is deleted on every
exit path fails when `file.save` raises inside the `with` block (lines
37-39) — the request gets a 500, but the temp file created by
`NamedTemporaryFile` is still on disk, because the cleanup `try/finally`
of lines 41-65 was never entered. -/
theorem C1_counterexample :
    (transcribe env_saveFail req_valid).tmpRemains = true ∧
    (transcribe env_saveFail req_valid).response = ⟨500, [("error", "disk full")]⟩ := by
  decide

/-- C1, amended: on every exit path on which the write of the uploaded
bytes to the temp file succeeded (success of the model call, or an
exception raised by it), the handler deletes the temp file, provided the
deletion call itself succeeds; an exception raised while writing the
uploaded bytes leaks the temp file. -/
theorem C1_cleanup_after_successful_write (env : Env) (req : Request)
    (hsave : env.saveResult = .ok ()) (hunlink : env.unlinkResult = .ok ()) :
    (transcribe env req).tmpRemains = false := by
  unfold transcribe innerTryFinally
  cases req.files.lookup "file" with
  | none => rfl
  | some file =>
      dsimp only
      by_cases hn : file.filename = ""
      · rw [if_pos hn]
      · rw [if_neg hn, hsave, hunlink]
        cases env.transcribeResult with
        | ok d => rfl
        | exn e => rfl

/-- Witness for the amended C1 at a concrete successful request. -/
theorem C1_cleanup_witness :
    (transcribe env_ok req_valid).tmpRemains = false :=
  C1_cleanup_after_successful_write env_ok req_valid rfl rfl

/-- C2, counterexample: with a valid file and the language field equal to
the empty string, line 47 maps the hint to unset (Python truthiness),
not to the empty string passed verbatim as the claim states. -/
theorem C2_counterexample :
    req_emptyLang.form.lookup "language" = some "" ∧
    (transcribe env_ok req_emptyLang).calls.map ModelCall.language = [none] ∧
    ([none] : List (Option String)) ≠ [some ""] := by
  refine ⟨rfl, by decide, by decide⟩

/-- C2, amended: for every request with a valid file that reaches the
external call, the language hint the model receives is: unset when the
field is absent, empty, or equal to "auto"; the verbatim field value for
every other string. -/
theorem C2_language_normalization (env : Env) (req : Request) (file : FilePart)
    (hf : req.files.lookup "file" = some file) (hn : file.filename ≠ "")
    (hsave : env.saveResult = .ok ()) :
    (transcribe env req).calls.map ModelCall.language
      = [normalizeLanguageAmended (req.form.lookup "language")] := by
  rw [transcribe_valid_save_ok env req file hf hn hsave]
  unfold innerTryFinally
  cases env.transcribeResult with
  | ok d => simp [normalizeLanguage_eq_amended]
  | exn e => simp [normalizeLanguage_eq_amended]

/-- Witness for the amended C2: language "fr" is observed verbatim. -/
theorem C2_language_witness :
    (transcribe env_ok req_fr).calls.map ModelCall.language
      = [normalizeLanguageAmended (req_fr.form.lookup "language")] :=
  C2_language_normalization env_ok req_fr ⟨"clip.webm"⟩ rfl (by decide) rfl

/-- C3: for a request passing both validation checks, an exception raised
while writing the upload to the temp file or by the external call is
caught by the outer handler (lines 67-69) and mapped to HTTP 500 with
body consisting of the error key bound to the string representation of
that exception. -/
theorem C3_exception_to_500 (env : Env) (req : Request) (file : FilePart) (e : String)
    (hf : req.files.lookup "file" = some file) (hn : file.filename ≠ "")
    (h : env.saveResult = .exn e ∨
      (env.saveResult = .ok () ∧ env.transcribeResult = .exn e)) :
    (transcribe env req).response = ⟨500, [("error", e)]⟩ := by
  rcases h with hsave | ⟨hsave, ht⟩
  · unfold transcribe
    rw [hf, hsave]
    simp [hn]
  · rw [transcribe_valid_save_ok env req file hf hn hsave]
    unfold innerTryFinally
    rw [ht]

/-- Witness for C3: a model exception with message "boom" yields 500 and
an error body carrying "boom". -/
theorem C3_exception_witness :
    (transcribe env_boom req_valid).response = ⟨500, [("error", "boom")]⟩ :=
  C3_exception_to_500 env_boom req_valid ⟨"clip.webm"⟩ "boom" rfl (by decide)
    (Or.inr ⟨rfl, rfl⟩)

/-- C4: a request with no file field gets HTTP 400 with an error body
("No file provided"), and the model is never invoked. -/
theorem C4_no_file_field (env : Env) (req : Request)
    (h : req.files.lookup "file" = none) :
    (transcribe env req).response = ⟨400, [("error", "No file provided")]⟩ ∧
    (transcribe env req).calls = [] := by
  unfold transcribe
  rw [h]
  exact ⟨rfl, rfl⟩

/-- Witness for C4 at a request with no file part. -/
theorem C4_no_file_witness :
    (transcribe env_ok req_noFile).response = ⟨400, [("error", "No file provided")]⟩ ∧
    (transcribe env_ok req_noFile).calls = [] :=
  C4_no_file_field env_ok req_noFile rfl

/-- C5: a request whose file field carries an empty filename gets HTTP
400 with an error body ("No file selected"), and the model is never
invoked. -/
theorem C5_empty_filename (env : Env) (req : Request) (file : FilePart)
    (hf : req.files.lookup "file" = some file) (hn : file.filename = "") :
    (transcribe env req).response = ⟨400, [("error", "No file selected")]⟩ ∧
    (transcribe env req).calls = [] := by
  unfold transcribe
  rw [hf]
  dsimp only
  rw [if_pos hn]
  exact ⟨rfl, rfl⟩

/-- Witness for C5 at a request whose file part has an empty filename. -/
theorem C5_empty_filename_witness :
    (transcribe env_ok req_emptyFilename).response
        = ⟨400, [("error", "No file selected")]⟩ ∧
    (transcribe env_ok req_emptyFilename).calls = [] :=
  C5_empty_filename env_ok req_emptyFilename ⟨""⟩ rfl rfl

/-- C6: a successful request returns HTTP 200 with body binding the text
key to the stripped transcription, stripping is idempotent on the
returned text, and the empty string is accepted (the 200 status does not
depend on the text). -/
theorem C6_success_trimmed (env : Env) (req : Request) (file : FilePart)
    (d : TranscribeDict)
    (hf : req.files.lookup "file" = some file) (hn : file.filename ≠ "")
    (hsave : env.saveResult = .ok ()) (ht : env.transcribeResult = .ok d) :
    (transcribe env req).response = ⟨200, [("text", pyStrip (d.text?.getD ""))]⟩ ∧
    pyStrip (pyStrip (d.text?.getD "")) = pyStrip (d.text?.getD "") := by
  constructor
  · rw [transcribe_valid_save_ok env req file hf hn hsave]
    unfold innerTryFinally
    rw [ht]
  · exact pyStrip_idem _

/-- Witness for C6 at a concrete successful request. -/
theorem C6_success_witness :
    (transcribe env_ok req_valid).response
        = ⟨200, [("text", pyStrip ((TranscribeDict.mk (some " hello ")).text?.getD ""))]⟩ ∧
    pyStrip (pyStrip ((TranscribeDict.mk (some " hello ")).text?.getD ""))
        = pyStrip ((TranscribeDict.mk (some " hello ")).text?.getD "") :=
  C6_success_trimmed env_ok req_valid ⟨"clip.webm"⟩ ⟨some " hello "⟩ rfl (by decide)
    rfl rfl

/-- C7: every model invocation of a request carries exactly the temp-file
path, the normalized language hint, and `fp16 = false` (compatibility
mode preferred over fast mode on every invocation). -/
theorem C7_call_arguments (env : Env) (req : Request) (c : ModelCall)
    (hc : c ∈ (transcribe env req).calls) :
    c.path = env.tmpName ∧
    c.language = normalizeLanguage (req.form.lookup "language") ∧
    c.fp16 = false := by
  rcases transcribe_calls_cases env req with h | h
  · rw [h] at hc
    simp at hc
  · rw [h] at hc
    simp at hc
    rw [hc]
    exact ⟨rfl, rfl, rfl⟩

/-- Witness for C7 at a concrete invocation with language "fr". -/
theorem C7_call_witness :
    (⟨"/tmp/upload.webm", some "fr", false⟩ : ModelCall).path = env_ok.tmpName ∧
    (⟨"/tmp/upload.webm", some "fr", false⟩ : ModelCall).language
        = normalizeLanguage (req_fr.form.lookup "language") ∧
    (⟨"/tmp/upload.webm", some "fr", false⟩ : ModelCall).fp16 = false :=
  C7_call_arguments env_ok req_fr ⟨"/tmp/upload.webm", some "fr", false⟩ (by decide)

/-- C8: GET /health returns 200 with exactly the two fixed keys, and the
response does not depend on the state of the external capability. -/
theorem C8_health_constant (env : Env) :
    health env = ⟨200, [("status", "healthy"), ("service", "whisper-transcription")]⟩ ∧
    ∀ env2 : Env, health env = health env2 :=
  ⟨rfl, fun _ => rfl⟩

/-- C9: the model is invoked at most once per request, and if the
invocation raised then the handler immediately returns the 500 mapping of
that exception — no retry is visible in the trace. -/
theorem C9_at_most_once (env : Env) (req : Request) :
    (transcribe env req).calls.length ≤ 1 ∧
    (∀ e, env.transcribeResult = .exn e → (transcribe env req).calls ≠ [] →
        (transcribe env req).response = ⟨500, [("error", e)]⟩) := by
  constructor
  · rcases transcribe_calls_cases env req with h | h <;> rw [h] <;> simp
  · intro e he hne
    unfold transcribe at hne ⊢
    cases hf : req.files.lookup "file" with
    | none =>
        rw [hf] at hne
        exact absurd rfl hne
    | some file =>
        rw [hf] at hne
        dsimp only at hne ⊢
        by_cases hn : file.filename = ""
        · rw [if_pos hn] at hne
          exact absurd rfl hne
        · rw [if_neg hn] at hne ⊢
          cases hs : env.saveResult with
          | exn e2 =>
              rw [hs] at hne
              exact absurd rfl hne
          | ok u =>
              unfold innerTryFinally
              rw [he]

/-- Witness for C9 at a concrete failing invocation. -/
theorem C9_at_most_once_witness :
    (transcribe env_boom req_valid).calls.length ≤ 1 ∧
    (transcribe env_boom req_valid).response = ⟨500, [("error", "boom")]⟩ :=
  ⟨(C9_at_most_once env_boom req_valid).1,
   (C9_at_most_once env_boom req_valid).2 "boom" rfl (by decide)⟩

/-- C10: the outcome of the unlink in the finally block never changes the
response — a successful transcription still returns its 200 body and a
failed one still returns the 500 mapping of the original exception, for
any unlink outcome. -/
theorem C10_unlink_failure_swallowed (env : Env) (req : Request) (u : Outcome Unit) :
    (transcribe { env with unlinkResult := u } req).response
      = (transcribe env req).response := by
  obtain ⟨t, s, tr, u0⟩ := env
  unfold transcribe innerTryFinally
  cases req.files.lookup "file" with
  | none => rfl
  | some file =>
      dsimp only
      by_cases hn : file.filename = ""
      · simp only [if_pos hn]
      · simp only [if_neg hn]
        cases s with
        | exn e => rfl
        | ok v =>
            cases tr <;> cases u <;> cases u0 <;> rfl

end WhisperServer
